import Mathlib

/-!
Verification of the catalog-access client in
`src/backend/services/modpack_service.py` (ContainerCraft).

The Python source is shallowly embedded: every stateful method becomes a
pure Lean function that takes the relevant state (cache contents, rate
limiter window, current time) explicitly and returns the updated state.
Machine times (`time.time()`, `datetime.now()`) are modelled as `Int`
seconds.  The HTTP transport is modelled by an oracle value describing
the single upstream interaction the call under scrutiny would perform.
Python's `datetime.fromisoformat` (standard library, not repository
code) is abstracted as an explicit `parseDate : String → Option Int`
argument; everything the repository itself does to the string (the
`.replace("Z", "+00:00")` preprocessing, the truthiness test) is
embedded faithfully.
-/

namespace ContainerCraft

/-! ### Small string helpers

Python string operations used by the service, re-implemented by
structural recursion over the character list so that the kernel can
evaluate them (`String.toLower`, `String.replace` and `String.ltb` in
core Lean are well-founded recursions that do not reduce definitionally).
`pyLower` matches `str.lower` on ASCII data, which is the only data the
service manipulates. -/

/-- ASCII lower-casing of one character, as `str.lower` does on ASCII. -/
def lowerChar (c : Char) : Char :=
  if 'A' ≤ c ∧ c ≤ 'Z' then Char.ofNat (c.toNat + 32) else c

/-- Python `s.lower()` on ASCII strings. -/
def pyLower (s : String) : String := ⟨s.data.map lowerChar⟩

/-- Contiguous-sublist test on character lists: `needle in hay` for
Python strings. -/
def charsInfix (needle hay : List Char) : Bool :=
  match hay with
  | [] => needle.isEmpty
  | _ :: t => needle.isPrefixOf hay || charsInfix needle t

/-- Python's `needle in hay` on strings (contiguous substring test). -/
def pyContains (hay needle : String) : Bool := charsInfix needle.data hay.data

/-- Python `s.replace("Z", "+00:00")`: since the pattern is the single
character `Z`, substring replacement coincides with character-wise
expansion. -/
def replaceZ (s : String) : String :=
  ⟨s.data.flatMap (fun c => if c = 'Z' then "+00:00".data else [c])⟩

/-- Truthiness of a Python `str`-or-`None` value: `None` and `""` are
falsy. -/
def pyTruthy : Option String → Bool
  | none => false
  | some s => !s.isEmpty

/-! ### CacheEntry and the response cache (`ModpackService.cache`)

The Python cache is a `dict` keyed by strings; it is embedded as an
association list with unique keys (insertion replaces any previous
binding, deletion filters the binding out, lookup takes the unique
binding). -/

/-- Embeds `CacheEntry.__init__`: `expires_at = datetime.now() + timedelta(seconds=ttl)`. -/
structure CacheEntry (β : Type) where
  data : β
  expires_at : Int
deriving DecidableEq, Repr

/-- Embeds `CacheEntry.is_expired`: `datetime.now() > self.expires_at`. -/
def CacheEntry.is_expired (e : CacheEntry β) (now : Int) : Bool :=
  e.expires_at < now

/-- The `self.cache` dictionary. -/
abbrev Cache (β : Type) : Type := List (String × CacheEntry β)

/-- Dictionary lookup `self.cache[cache_key]` guarded by
`cache_key in self.cache`. -/
def cacheFind (c : Cache β) (key : String) : Option (CacheEntry β) :=
  match c with
  | [] => none
  | (k, e) :: rest => if k = key then some e else cacheFind rest key

/-- Embeds `del self.cache[cache_key]`. -/
def cacheDelete (c : Cache β) (key : String) : Cache β :=
  c.filter (fun p => p.1 ≠ key)

/-- Embeds `ModpackService._cache_data`: store `data` under `cache_key` with
the given TTL, replacing any previous binding (dict assignment). -/
def cacheData (c : Cache β) (key : String) (data : β) (ttl_seconds now : Int) :
    Cache β :=
  (key, ⟨data, now + ttl_seconds⟩) :: cacheDelete c key

/-- Embeds `ModpackService._get_cached_data`: return the entry's payload if
present and unexpired; evict and report absent if present but expired.
Returns the (possibly shrunk) cache alongside the result. -/
def getCachedData (c : Cache β) (key : String) (now : Int) :
    Option β × Cache β :=
  match cacheFind c key with
  | some e => if e.is_expired now then (none, cacheDelete c key) else (some e.data, c)
  | none => (none, c)

/-! ### Cache keys (`ModpackService._get_cache_key`)

Python builds `f"{endpoint}?{param_str}"` where `param_str` joins
`f"{k}={v}"` over `sorted(params.items())`.  `sorted` on pairs of
strings is lexicographic: first the key, then (only on equal keys,
which a dict never produces) the value.  Parameter values are embedded
already stringified. -/

/-- Python's tuple order on `(key, value)` string pairs, as used by
`sorted(params.items())`. -/
def paramLe (a b : String × String) : Prop :=
  a.1.data < b.1.data ∨ (a.1 = b.1 ∧ a.2.data ≤ b.2.data)

instance : DecidableRel paramLe := fun a b => by
  unfold paramLe; infer_instance

instance : IsTotal (String × String) paramLe := by
  constructor
  intro a b
  rcases lt_trichotomy a.1.data b.1.data with h | h | h
  · exact Or.inl (Or.inl h)
  · have he : a.1 = b.1 := String.ext h
    rcases le_total a.2.data b.2.data with h2 | h2
    · exact Or.inl (Or.inr ⟨he, h2⟩)
    · exact Or.inr (Or.inr ⟨he.symm, h2⟩)
  · exact Or.inr (Or.inl h)

instance : IsTrans (String × String) paramLe := by
  constructor
  intro a b c hab hbc
  rcases hab with h1 | ⟨h1, h1'⟩ <;> rcases hbc with h2 | ⟨h2, h2'⟩
  · exact Or.inl (lt_trans h1 h2)
  · exact Or.inl (by rwa [← h2])
  · exact Or.inl (by rwa [h1])
  · exact Or.inr ⟨h1.trans h2, le_trans h1' h2'⟩

instance : IsAntisymm (String × String) paramLe := by
  constructor
  intro a b hab hba
  rcases hab with h1 | ⟨h1, h1'⟩ <;> rcases hba with h2 | ⟨h2, h2'⟩
  · exact absurd h2 (lt_asymm h1)
  · exact absurd h1 (by rw [h2]; exact lt_irrefl _)
  · exact absurd h2 (by rw [h1]; exact lt_irrefl _)
  · have hv : a.2 = b.2 := String.ext (le_antisymm h1' h2')
    exact Prod.ext h1 hv

/-- Embeds `sorted(params.items())`. -/
def sortParams (ps : List (String × String)) : List (String × String) :=
  List.insertionSort paramLe ps

/-- Embeds `ModpackService._get_cache_key`. -/
def getCacheKey (endpoint : String) (params : List (String × String)) : String :=
  endpoint ++ "?" ++
    String.intercalate "&" ((sortParams params).map (fun p => p.1 ++ "=" ++ p.2))

/-! ### RateLimiter

`time.time()` instants are `Int` seconds.  `acquire` returns the time
actually slept (`asyncio.sleep(wait_time)` when the computed wait is
positive, nothing otherwise) together with the updated window.  Note
that the appended timestamp is the `now` sampled *before* any sleep,
exactly as in the source. -/

structure RateLimiter where
  max_requests : Nat
  window_seconds : Int
  requests : List Int
deriving DecidableEq, Repr

/-- Embeds `RateLimiter.__init__` (the service constructs it with
`max_requests=100, window_seconds=60`). -/
def RateLimiter.init (max_requests : Nat) (window_seconds : Int) :
    RateLimiter :=
  ⟨max_requests, window_seconds, []⟩

/-- The pruning comprehension: keep `req_time` with
`now - req_time < window_seconds`. -/
def RateLimiter.pruned (rl : RateLimiter) (now : Int) : List Int :=
  rl.requests.filter (fun t => now - t < rl.window_seconds)

/-- Embeds `min(self.requests)` (total version; the source only evaluates it
on a nonempty list). -/
def listMin : List Int → Int
  | [] => 0
  | x :: xs => xs.foldl min x

/-- Embeds `RateLimiter.acquire`: prune, possibly sleep, append `now`.
Returns `(slept, new state)`. -/
def RateLimiter.acquire (rl : RateLimiter) (now : Int) : Int × RateLimiter :=
  let pruned := rl.pruned now
  let slept :=
    if rl.max_requests ≤ pruned.length then
      let oldest := listMin pruned
      let wait := rl.window_seconds - (now - oldest)
      if 0 < wait then wait else 0
    else 0
  (slept, { rl with requests := pruned ++ [now] })

/-- Run a sequence of `acquire` calls at the given `now` instants,
collecting the instants at which each call actually proceeds
(`now + slept`). -/
def acquireRun (rl : RateLimiter) : List Int → List Int × RateLimiter
  | [] => ([], rl)
  | now :: rest =>
    let (slept, rl') := rl.acquire now
    let (adms, rlF) := acquireRun rl' rest
    ((now + slept) :: adms, rlF)

/-- A single sequential caller: each call may only be issued once the
previous call has returned, i.e. its `now` is at or after the previous
call's admission instant. -/
def seqTraceOK (prevDone : Int) (rl : RateLimiter) : List Int → Bool
  | [] => true
  | now :: rest =>
    decide (prevDone ≤ now) &&
      (let (slept, rl') := rl.acquire now
       seqTraceOK (now + slept) rl' rest)

/-! ### Error taxonomy

The source's exception hierarchy.  `ModpackNotFoundError`,
`APIConnectionError` and `APIRateLimitError` all derive from
`ModpackServiceError`; a bare `except Exception` catches every variant,
`except ModpackNotFoundError` only the not-found one. -/

inductive ServiceError where
  /-- Python `APIConnectionError` -/
  | connection (msg : String)
  /-- Python `APIRateLimitError` -/
  | rateLimit (msg : String)
  /-- Python `ModpackNotFoundError` -/
  | notFound (msg : String)
  /-- plain `ModpackServiceError` -/
  | generic (msg : String)
deriving DecidableEq, Repr

/-- Python `str(e)`: the message an exception renders as when interpolated. -/
def ServiceError.message : ServiceError → String
  | .connection m => m
  | .rateLimit m => m
  | .notFound m => m
  | .generic m => m

/-- Does `except ModpackNotFoundError` catch this? -/
def ServiceError.isNotFound : ServiceError → Bool
  | .notFound _ => true
  | _ => false

/-! ### Raw upstream records

Typed views of the JSON dictionaries the upstream returns.  `none`
means the key is absent, so `d.get(k, default)` becomes `getD` and
`d[k]` becomes a lookup that fails on `none` (Python `KeyError`). -/

/-- An object read only through `.get("name", "")` (category/author). -/
structure NamedObj where
  name : Option String := none
deriving DecidableEq, Repr

/-- An object read only through `.get("url")` (logo/screenshot). -/
structure UrlObj where
  url : Option String := none
deriving DecidableEq, Repr

/-- An element of `latestFilesIndexes`. -/
structure FilesIndex where
  gameVersion : Option String := none
  modLoader : Option String := none
deriving DecidableEq, Repr

/-- A raw mod object as consumed by `_parse_modpack_search_result` and
`_parse_modpack_details`. -/
structure RawMod where
  id : Option Int := none
  name : Option String := none
  summary : Option String := none
  description : Option String := none
  downloadCount : Option Int := none
  categories : Option (List NamedObj) := none
  authors : Option (List NamedObj) := none
  logo : Option UrlObj := none
  screenshots : Option (List UrlObj) := none
  dateModified : Option String := none
  latestFilesIndexes : Option (List FilesIndex) := none
deriving DecidableEq, Repr

/-- A raw file object as consumed by `_parse_modpack_version`. -/
structure RawFile where
  id : Option Int := none
  displayName : Option String := none
  fileName : Option String := none
  fileDate : Option String := none
  downloadUrl : Option String := none
  gameVersions : Option (List String) := none
  modLoader : Option String := none
  fileLength : Option Int := none
deriving DecidableEq, Repr

/-! ### Normalized result models (the pydantic models) -/

structure ModpackSearchResult where
  id : Int
  name : String
  summary : String
  download_count : Int
  categories : List String
  authors : List String
  logo_url : Option String
  last_updated : Option Int
deriving DecidableEq, Repr

structure ModpackDetails where
  id : Int
  name : String
  summary : String
  description : String
  download_count : Int
  categories : List String
  authors : List String
  logo_url : Option String
  screenshots : List String
  last_updated : Option Int
  game_version_latest : Option String
  mod_loader : Option String
deriving DecidableEq, Repr

structure ModpackVersion where
  id : Int
  display_name : String
  file_name : String
  file_date : Int
  download_url : String
  game_versions : List String
  mod_loader : Option String
  file_size : Int
deriving DecidableEq, Repr

/-! ### Normalizers (`_parse_modpack_*`)

The ways a parse can blow up in the source: a `KeyError` on a required
subscript, a `ValueError` from `datetime.fromisoformat` on a malformed
timestamp, an `IndexError` from `latestFilesIndexes[0]` on a present
but empty list.  `parseDate` abstracts `datetime.fromisoformat`. -/

inductive ParseError where
  /-- Python `KeyError` from `d["k"]` -/
  | missingKey (key : String)
  /-- Python `ValueError` from `datetime.fromisoformat` -/
  | badTimestamp (s : String)
  /-- Python `IndexError` from a subscript `[0]` on an empty list -/
  | indexOutOfRange
deriving DecidableEq, Repr

/-- Embeds `d["k"]` on an optional field. -/
def require (key : String) : Option α → Except ParseError α
  | some v => .ok v
  | none => .error (.missingKey key)

/-- Embeds `datetime.fromisoformat(s.replace("Z", "+00:00")) if s else None`
for an optional timestamp field (`dateModified`): absent or falsy
(empty) strings give `none`, otherwise the string must parse. -/
def parseOptDate (parseDate : String → Option Int) :
    Option String → Except ParseError (Option Int)
  | none => .ok none
  | some s =>
    if s.isEmpty then .ok none
    else
      match parseDate (replaceZ s) with
      | some t => .ok (some t)
      | none => .error (.badTimestamp s)

/-- Embeds `_parse_modpack_search_result`. -/
def parseModpackSearchResult (parseDate : String → Option Int) (m : RawMod) :
    Except ParseError ModpackSearchResult := do
  let id ← require "id" m.id
  let name ← require "name" m.name
  let lastUpdated ← parseOptDate parseDate m.dateModified
  .ok { id := id
        name := name
        summary := m.summary.getD ""
        download_count := m.downloadCount.getD 0
        categories := (m.categories.getD []).map (fun c => c.name.getD "")
        authors := (m.authors.getD []).map (fun a => a.name.getD "")
        logo_url := (m.logo.getD {}).url
        last_updated := lastUpdated }

/-- Embeds the subscript chain on `latestFilesIndexes` in the source: default to a list
holding one empty object when the key is absent, then subscript `[0]`,
which raises on a present-but-empty list. -/
def latestFilesHead : Option (List FilesIndex) → Except ParseError FilesIndex
  | none => .ok {}
  | some [] => .error .indexOutOfRange
  | some (fi :: _) => .ok fi

/-- Embeds `_parse_modpack_details`. -/
def parseModpackDetails (parseDate : String → Option Int) (m : RawMod) :
    Except ParseError ModpackDetails := do
  let id ← require "id" m.id
  let name ← require "name" m.name
  let lastUpdated ← parseOptDate parseDate m.dateModified
  let fi ← latestFilesHead m.latestFilesIndexes
  .ok { id := id
        name := name
        summary := m.summary.getD ""
        description := m.description.getD ""
        download_count := m.downloadCount.getD 0
        categories := (m.categories.getD []).map (fun c => c.name.getD "")
        authors := (m.authors.getD []).map (fun a => a.name.getD "")
        logo_url := (m.logo.getD {}).url
        screenshots := (m.screenshots.getD []).map (fun s => s.url.getD "")
        last_updated := lastUpdated
        game_version_latest := fi.gameVersion
        mod_loader := fi.modLoader }

/-- Embeds `_parse_modpack_version`: `fileDate` is a required subscript whose
value is then parsed unconditionally. -/
def parseModpackVersion (parseDate : String → Option Int) (f : RawFile) :
    Except ParseError ModpackVersion := do
  let id ← require "id" f.id
  let displayName ← require "displayName" f.displayName
  let fileName ← require "fileName" f.fileName
  let rawDate ← require "fileDate" f.fileDate
  let fileDate ←
    match parseDate (replaceZ rawDate) with
    | some t => Except.ok t
    | none => Except.error (.badTimestamp rawDate)
  .ok { id := id
        display_name := displayName
        file_name := fileName
        file_date := fileDate
        download_url := f.downloadUrl.getD ""
        game_versions := f.gameVersions.getD []
        mod_loader := f.modLoader
        file_size := f.fileLength.getD 0 }

/-! ### The request pipeline (`ModpackService._make_request`)

The single `httpx` interaction a cache-missing call would perform is
described by an oracle value: either a status/parsed-body/text triple
or one of the transport exceptions the source catches.  `β` is the
parsed shape of the response's `data` field for the endpoint at hand;
the Python service keeps one heterogeneous dict for all endpoints, but
endpoints with different shapes always produce distinct cache keys, so
splitting the cache by payload type is observationally equivalent. -/

instance [DecidableEq ε] [DecidableEq α] : DecidableEq (Except ε α) := fun a b =>
  match a, b with
  | .ok x, .ok y => if h : x = y then .isTrue (by rw [h]) else .isFalse (by simp [h])
  | .error x, .error y => if h : x = y then .isTrue (by rw [h]) else .isFalse (by simp [h])
  | .ok _, .error _ => .isFalse (by simp)
  | .error _, .ok _ => .isFalse (by simp)

inductive HttpResult (β : Type) where
  | ok (status : Nat) (body : β) (text : String)
  /-- Python `httpx.ConnectError` -/
  | connectError (msg : String)
  /-- Python `httpx.TimeoutException` -/
  | timeoutError (msg : String)
  /-- other `httpx.HTTPError` -/
  | transportError (msg : String)
deriving DecidableEq, Repr

/-- The outcome of one service operation: the Python return value or
raised exception, the cache and rate limiter afterwards, and how many
HTTP requests went out on the wire. -/
structure OpOutcome (ρ β : Type) where
  result : ρ
  cache : Cache β
  limiter : RateLimiter
  netCalls : Nat
deriving Repr, DecidableEq

/-- Embeds `ModpackService._make_request` at instant `now`: cache probe, rate
limiting, status-code mapping, 300-second-TTL caching of successful
bodies. `client` is whether the async context manager was entered. -/
def makeRequest (endpoint : String) (params : List (String × String))
    (client : Bool) (cache : Cache β) (rl : RateLimiter) (now : Int)
    (net : HttpResult β) : OpOutcome (Except ServiceError β) β :=
  if !client then
    ⟨.error (.generic "Service not initialized. Use async context manager."),
      cache, rl, 0⟩
  else
    let key := getCacheKey endpoint params
    match getCachedData cache key now with
    | (some data, cache') => ⟨.ok data, cache', rl, 0⟩
    | (none, cache') =>
      let (_, rl') := rl.acquire now
      match net with
      | .ok status body text =>
        if status = 429 then
          ⟨.error (.rateLimit "API rate limit exceeded"), cache', rl', 1⟩
        else if status = 404 then
          ⟨.error (.notFound ("Resource not found: " ++ endpoint)), cache', rl', 1⟩
        else if 400 ≤ status then
          ⟨.error (.generic ("API error " ++ toString status ++ ": " ++ text)),
            cache', rl', 1⟩
        else
          ⟨.ok body, cacheData cache' key body 300 now, rl', 1⟩
      | .connectError msg =>
        ⟨.error (.connection ("Failed to connect to CurseForge API: " ++ msg)),
          cache', rl', 1⟩
      | .timeoutError msg =>
        ⟨.error (.connection ("Request timeout: " ++ msg)), cache', rl', 1⟩
      | .transportError msg =>
        ⟨.error (.generic ("HTTP error: " ++ msg)), cache', rl', 1⟩

/-! ### Fallback catalog (`search_fallback_modpacks`) -/

structure FallbackPack where
  name : String
  description : String
  game_version : String
  mod_loader : String
  instructions : String
  estimated_size : String
  difficulty : String
deriving DecidableEq, Repr

/-- The fixed `popular_modpacks` list. -/
def popularModpacks : List FallbackPack :=
  [ ⟨"All The Mods 9", "Kitchen sink modpack with tons of mods", "1.20.1",
      "Forge", "Visit CurseForge or ATLauncher to download", "~500MB",
      "Advanced"⟩,
    ⟨"FTB Skies", "Skyblock-style modpack with quests", "1.19.2", "Forge",
      "Available on FTB App or CurseForge", "~300MB", "Intermediate"⟩,
    ⟨"Better Minecraft", "Enhanced vanilla experience with performance mods",
      "1.20.1", "Fabric", "Download from CurseForge or Modrinth", "~200MB",
      "Beginner"⟩,
    ⟨"Create: Above and Beyond", "Tech modpack focused on Create mod",
      "1.16.5", "Forge", "Available on CurseForge", "~400MB", "Intermediate"⟩,
    ⟨"Enigmatica 6", "Expert-style kitchen sink modpack", "1.16.5", "Forge",
      "Download from CurseForge", "~600MB", "Expert"⟩ ]

/-- The filter predicate: `search_lower in name.lower() or search_lower
in description.lower()`. -/
def fallbackMatches (search_term : String) (p : FallbackPack) : Bool :=
  pyContains (pyLower p.name) (pyLower search_term) ||
    pyContains (pyLower p.description) (pyLower search_term)

/-- Embeds `ModpackService.search_fallback_modpacks`: the static catalog,
filtered by case-insensitive substring match when the term is truthy. -/
def searchFallbackModpacks (search_term : String) : List FallbackPack :=
  if !search_term.isEmpty then popularModpacks.filter (fallbackMatches search_term)
  else popularModpacks

/-- One converted fallback entry as built in `search_modpacks`
(`id=1000000 + i`, author placeholder `"Community"`). -/
def fallbackEntry (i : Nat) (p : FallbackPack) : ModpackSearchResult :=
  { id := 1000000 + i
    name := p.name
    summary := p.description
    download_count := 0
    categories := [p.difficulty]
    authors := ["Community"]
    logo_url := none
    last_updated := none }

/-- Embeds `for i, pack in enumerate(fallback_results[:page_size])`. -/
def fallbackConvert (i : Nat) : List FallbackPack → List ModpackSearchResult
  | [] => []
  | p :: rest => fallbackEntry i p :: fallbackConvert (i + 1) rest

/-- The full fallback branch of `search_modpacks`. -/
def fallbackResults (search_term : String) (page_size : Nat) :
    List ModpackSearchResult :=
  fallbackConvert 0 ((searchFallbackModpacks search_term).take page_size)

/-! ### `ModpackService.search_modpacks` -/

/-- Embeds `ModpackService.is_api_available`: `self.api_key is not None`. -/
def isApiAvailable (api_key : Option String) : Bool := api_key.isSome

/-- The query-parameter dict built by `search_modpacks` (values
stringified as the cache key renders them). -/
def searchParams (search_term sort_field sort_order : String)
    (page_size : Nat) (index : Int) : List (String × String) :=
  [ ("gameId", "432"), ("categoryId", "4471"), ("sortField", sort_field),
    ("sortOrder", sort_order), ("pageSize", toString (min page_size 50)),
    ("index", toString index) ] ++
    (if !search_term.isEmpty then [("searchFilter", search_term)] else [])

/-- The per-item loop of `search_modpacks`: parse each raw record,
skip records whose parse raises, then apply the category post-filter
(`category_filter` truthy and its lower-casing absent from the
lower-cased category names drops the record). -/
def parseSearchBatch (parseDate : String → Option Int)
    (category_filter : Option String) (mods : List RawMod) :
    List ModpackSearchResult :=
  mods.filterMap (fun m =>
    match parseModpackSearchResult parseDate m with
    | .error _ => none
    | .ok r =>
      if pyTruthy category_filter &&
          !((r.categories.map pyLower).contains (pyLower (category_filter.getD "")))
      then none
      else some r)

/-- Embeds `ModpackService.search_modpacks`.  The search response's `data`
field is an optional list of raw mods (`response.get("data", [])`). -/
def searchModpacks (parseDate : String → Option Int) (api_key : Option String)
    (client : Bool) (cache : Cache (Option (List RawMod))) (rl : RateLimiter)
    (now : Int) (net : HttpResult (Option (List RawMod)))
    (search_term : String) (category_filter : Option String)
    (sort_field : String := "Popularity") (sort_order : String := "desc")
    (page_size : Nat := 20) (index : Int := 0) :
    OpOutcome (List ModpackSearchResult) (Option (List RawMod)) :=
  if !isApiAvailable api_key then
    ⟨fallbackResults search_term page_size, cache, rl, 0⟩
  else
    let params := searchParams search_term sort_field sort_order page_size index
    let out := makeRequest "/mods/search" params client cache rl now net
    match out.result with
    | .ok response =>
      ⟨parseSearchBatch parseDate category_filter (response.getD []),
        out.cache, out.limiter, out.netCalls⟩
    | .error _ =>
      ⟨fallbackResults search_term page_size, out.cache, out.limiter, out.netCalls⟩

/-! ### `ModpackService.get_modpack_details`

Wrapping of errors: `except ModpackNotFoundError: raise` re-raises the
not-found variant unchanged; the following `except Exception as e`
turns everything else into
`ModpackServiceError(f"Failed to retrieve modpack details: {e}")`. -/

/-- The wrap applied by `get_modpack_details`'s generic handler. -/
def wrapDetails (e : ServiceError) : ServiceError :=
  .generic ("Failed to retrieve modpack details: " ++ e.message)

/-- The wrap applied by `get_modpack_versions`'s handler. -/
def wrapVersions (e : ServiceError) : ServiceError :=
  .generic ("Failed to retrieve modpack versions: " ++ e.message)

/-- Embeds `ModpackService.get_modpack_details`.  The detail response's
`data` field is an optional single raw mod (`response.get("data")`,
with `none` also covering a falsy payload). -/
def getModpackDetails (parseDate : String → Option Int) (client : Bool)
    (cache : Cache (Option RawMod)) (rl : RateLimiter) (now : Int)
    (net : HttpResult (Option RawMod)) (modpack_id : Int) :
    OpOutcome (Except ServiceError ModpackDetails) (Option RawMod) :=
  let endpoint := "/mods/" ++ toString modpack_id
  let out := makeRequest endpoint [] client cache rl now net
  match out.result with
  | .ok response =>
    match response with
    | none =>
      -- `raise ModpackNotFoundError(...)` inside the `try`, re-raised
      -- unchanged by `except ModpackNotFoundError: raise`
      ⟨.error (.notFound ("Modpack " ++ toString modpack_id ++ " not found")),
        out.cache, out.limiter, out.netCalls⟩
    | some m =>
      match parseModpackDetails parseDate m with
      | .ok d => ⟨.ok d, out.cache, out.limiter, out.netCalls⟩
      | .error _ =>
        -- a parse exception reaches `except Exception as e`
        ⟨.error (.generic "Failed to retrieve modpack details: parse error"),
          out.cache, out.limiter, out.netCalls⟩
  | .error e =>
    if e.isNotFound then ⟨.error e, out.cache, out.limiter, out.netCalls⟩
    else ⟨.error (wrapDetails e), out.cache, out.limiter, out.netCalls⟩

/-! ### `ModpackService.get_modpack_versions`

There is no `except ModpackNotFoundError: raise` clause here: the lone
`except Exception as e` catches *every* exception, including
`ModpackNotFoundError`, and re-raises it wrapped as a plain
`ModpackServiceError`. -/

/-- The stable descending-by-`file_date` order used by
`versions.sort(key=lambda v: v.file_date, reverse=True)`. -/
def versionAfter (a b : ModpackVersion) : Prop := b.file_date ≤ a.file_date

instance : DecidableRel versionAfter := fun a b =>
  inferInstanceAs (Decidable (b.file_date ≤ a.file_date))

instance : IsTotal ModpackVersion versionAfter :=
  ⟨fun a b => Int.le_total b.file_date a.file_date⟩

instance : IsTrans ModpackVersion versionAfter :=
  ⟨fun _ _ _ h1 h2 => le_trans h2 h1⟩

/-- Embeds `versions.sort(key=lambda v: v.file_date, reverse=True)` (a stable
descending sort, as Python's is). -/
def sortVersions (vs : List ModpackVersion) : List ModpackVersion :=
  List.insertionSort versionAfter vs

/-- The per-item loop of `get_modpack_versions` (parse failures are
caught and the item skipped). -/
def parseVersionBatch (parseDate : String → Option Int) (files : List RawFile) :
    List ModpackVersion :=
  files.filterMap (fun f => (parseModpackVersion parseDate f).toOption)

/-- The `params` dict of `get_modpack_versions` (`if game_version:` is
a truthiness test, so `Some ""` adds nothing). -/
def versionsParams (game_version : Option String) : List (String × String) :=
  if pyTruthy game_version then [("gameVersion", game_version.getD "")] else []

/-- The endpoint of `get_modpack_versions`. -/
def versionsEndpoint (modpack_id : Int) : String :=
  "/mods/" ++ toString modpack_id ++ "/files"

/-- Embeds `ModpackService.get_modpack_versions`.  The files response's
`data` field is an optional list of raw files
(`response.get("data", [])`). -/
def getModpackVersions (parseDate : String → Option Int) (client : Bool)
    (cache : Cache (Option (List RawFile))) (rl : RateLimiter) (now : Int)
    (net : HttpResult (Option (List RawFile))) (modpack_id : Int)
    (game_version : Option String) :
    OpOutcome (Except ServiceError (List ModpackVersion)) (Option (List RawFile)) :=
  let out := makeRequest (versionsEndpoint modpack_id)
    (versionsParams game_version) client cache rl now net
  match out.result with
  | .ok response =>
    let files := response.getD []
    if files.isEmpty then ⟨.ok [], out.cache, out.limiter, out.netCalls⟩
    else
      ⟨.ok (sortVersions (parseVersionBatch parseDate files)),
        out.cache, out.limiter, out.netCalls⟩
  | .error e =>
    ⟨.error (wrapVersions e), out.cache, out.limiter, out.netCalls⟩

/-! ### Session headers (`ModpackService.__aenter__`) -/

/-- The headers the async context manager installs on the `httpx`
session: the API-key header is attached under a truthiness test
(`if self.api_key:`), unlike `is_api_available`'s `is not None`. -/
def enterHeaders (api_key : Option String) : List (String × String) :=
  [("Accept", "application/json"), ("User-Agent", "ContainerCraft/1.0")] ++
    (if pyTruthy api_key then [("x-api-key", api_key.getD "")] else [])

/-! ## Helper lemmas -/

theorem cacheFind_delete (c : Cache β) (key : String) :
    cacheFind (cacheDelete c key) key = none := by
  induction c with
  | nil => rfl
  | cons p rest ih =>
    by_cases h : p.1 = key
    · simpa [cacheDelete, List.filter, h] using ih
    · simpa [cacheDelete, List.filter, h, cacheFind] using ih

theorem cacheFind_cacheData_self (c : Cache β) (k : String) (d : β)
    (ttl now : Int) :
    cacheFind (cacheData c k d ttl now) k = some ⟨d, now + ttl⟩ := by
  simp [cacheData, cacheFind]

/-! ## Claim theorems -/

/-- C3: the cache never serves a stale value.  A lookup yields a stored
payload only while `now ≤ expires_at`; an entry whose expiry has passed
is reported absent and is deleted by the lookup itself; an entry stored
with `ttl = 0` is absent on any strictly later lookup; an entry stored
with `ttl = 60` is present immediately after storage. -/
theorem cache_never_serves_stale :
    (∀ (β : Type) (c : Cache β) (key : String) (now : Int) (d : β) (c' : Cache β),
        getCachedData c key now = (some d, c') →
        ∃ e, cacheFind c key = some e ∧ e.data = d ∧ now ≤ e.expires_at) ∧
    (∀ (β : Type) (c : Cache β) (key : String) (now : Int) (e : CacheEntry β),
        cacheFind c key = some e → e.expires_at < now →
        getCachedData c key now = (none, cacheDelete c key) ∧
        cacheFind ((getCachedData c key now).2) key = none) ∧
    (∀ (β : Type) (c : Cache β) (key : String) (d : β) (t0 t1 : Int),
        t0 < t1 → (getCachedData (cacheData c key d 0 t0) key t1).1 = none) ∧
    (∀ (β : Type) (c : Cache β) (key : String) (d : β) (t0 : Int),
        (getCachedData (cacheData c key d 60 t0) key t0).1 = some d) := by
  refine ⟨?_, ?_, ?_, ?_⟩
  · intro β c key now d c' h
    unfold getCachedData at h
    rcases hf : cacheFind c key with _ | e <;> rw [hf] at h
    · simp at h
    · by_cases hexp : e.is_expired now
      · simp [hexp] at h
      · simp [hexp] at h
        refine ⟨e, rfl, h.1, ?_⟩
        simpa [CacheEntry.is_expired, Int.not_lt] using hexp
  · intro β c key now e hf hlt
    have hexp : e.is_expired now = true := by
      simpa [CacheEntry.is_expired] using hlt
    have hget : getCachedData c key now = (none, cacheDelete c key) := by
      unfold getCachedData
      rw [hf]
      simp [hexp]
    exact ⟨hget, by rw [hget]; exact cacheFind_delete c key⟩
  · intro β c key d t0 t1 hlt
    unfold getCachedData
    rw [cacheFind_cacheData_self]
    simp [CacheEntry.is_expired, hlt]
  · intro β c key d t0
    have hexp : (⟨d, t0 + 60⟩ : CacheEntry β).is_expired t0 = false := by
      simp only [CacheEntry.is_expired, decide_eq_false_iff_not, Int.not_lt]
      omega
    unfold getCachedData
    rw [cacheFind_cacheData_self]
    simp [hexp]

/-- C3 witness: concrete instances of the `ttl = 0` and `ttl = 60`
parts. -/
theorem cache_never_serves_stale_witness :
    (getCachedData (cacheData ([] : Cache Nat) "k" 5 0 10) "k" 11).1 = none ∧
    (getCachedData (cacheData ([] : Cache Nat) "k" 5 60 10) "k" 10).1 = some 5 :=
  ⟨cache_never_serves_stale.2.2.1 Nat [] "k" 5 10 11 (by decide),
    cache_never_serves_stale.2.2.2 Nat [] "k" 5 10⟩

/-- C9: cache key construction is deterministic.  For two parameter
mappings with unique parameter names that are equal as sets of
`(name, value)` pairs, the constructed keys coincide regardless of
insertion order, since the key sorts the pairs first. -/
theorem cache_key_deterministic (endpoint : String)
    (ps1 ps2 : List (String × String))
    (h1 : (ps1.map Prod.fst).Nodup) (h2 : (ps2.map Prod.fst).Nodup)
    (hset : ∀ p, p ∈ ps1 ↔ p ∈ ps2) :
    getCacheKey endpoint ps1 = getCacheKey endpoint ps2 := by
  have nd1 : ps1.Nodup := h1.of_map
  have nd2 : ps2.Nodup := h2.of_map
  have hperm : ps1.Perm ps2 := (List.perm_ext_iff_of_nodup nd1 nd2).2 hset
  have hsorteq : sortParams ps1 = sortParams ps2 :=
    List.eq_of_perm_of_sorted
      (((List.perm_insertionSort paramLe ps1).trans hperm).trans
        (List.perm_insertionSort paramLe ps2).symm)
      (List.sorted_insertionSort paramLe ps1)
      (List.sorted_insertionSort paramLe ps2)
  unfold getCacheKey sortParams at hsorteq ⊢
  rw [hsorteq]

/-- C9 witness: two insertion orders of the same two parameters give
the same key. -/
theorem cache_key_deterministic_witness :
    getCacheKey "/mods/search" [("b", "2"), ("a", "1")] =
      getCacheKey "/mods/search" [("a", "1"), ("b", "2")] :=
  cache_key_deterministic "/mods/search" [("b", "2"), ("a", "1")]
    [("a", "1"), ("b", "2")] (by decide) (by decide)
    (by intro p; simp [or_comm])

theorem foldl_min_le_init (xs : List Int) (a : Int) : xs.foldl min a ≤ a := by
  induction xs generalizing a with
  | nil => exact le_refl a
  | cons x rest ih =>
    calc (x :: rest).foldl min a = rest.foldl min (min a x) := rfl
    _ ≤ min a x := ih (min a x)
    _ ≤ a := min_le_left a x

theorem foldl_min_le_mem (xs : List Int) (a : Int) :
    ∀ t ∈ xs, xs.foldl min a ≤ t := by
  induction xs generalizing a with
  | nil => intro t ht; cases ht
  | cons x rest ih =>
    intro t ht
    rcases List.mem_cons.1 ht with rfl | ht'
    · calc (t :: rest).foldl min a = rest.foldl min (min a t) := rfl
      _ ≤ min a t := foldl_min_le_init rest (min a t)
      _ ≤ t := min_le_right a t
    · exact ih (min a x) t ht'

theorem foldl_min_mem (xs : List Int) (a : Int) :
    xs.foldl min a = a ∨ xs.foldl min a ∈ xs := by
  induction xs generalizing a with
  | nil => exact Or.inl rfl
  | cons x rest ih =>
    rcases ih (min a x) with h | h
    · rcases min_choice a x with hm | hm
      · exact Or.inl (by rw [List.foldl_cons, h, hm])
      · exact Or.inr (by rw [List.foldl_cons, h, hm]; exact List.mem_cons_self x rest)
    · exact Or.inr (List.mem_cons_of_mem x h)

theorem listMin_mem (l : List Int) (h : l ≠ []) : listMin l ∈ l := by
  match l with
  | x :: xs =>
    show xs.foldl min x ∈ x :: xs
    rcases foldl_min_mem xs x with h' | h'
    · rw [h']; exact List.mem_cons_self x xs
    · exact List.mem_cons_of_mem x h'

theorem listMin_le (l : List Int) : ∀ t ∈ l, listMin l ≤ t := by
  match l with
  | [] => intro t ht; cases ht
  | x :: xs =>
    intro t ht
    rcases List.mem_cons.1 ht with rfl | ht'
    · exact foldl_min_le_init xs t
    · exact foldl_min_le_mem xs x t ht'

/-- C1 amended: per `acquire` call, timestamps at least `window_seconds`
old are discarded and every survivor lies strictly within the window;
an unblocked call (fewer than `max_requests` survivors) does not
suspend; a blocked call suspends for exactly
`window_seconds - (now - oldest_remaining_timestamp)`, which is
positive and at most `window_seconds`; the appended timestamp is the
pre-suspension `now`.  (The claim's global trailing-window admission
bound does not hold — see the counterexample — precisely because the
appended timestamp is the pre-suspension one.) -/
theorem rateLimiter_acquire_amended (rl : RateLimiter) (now : Int)
    (hW : 0 < rl.window_seconds) (hmax : 1 ≤ rl.max_requests)
    (hpast : ∀ t ∈ rl.requests, t ≤ now) :
    ((rl.acquire now).2.requests = rl.pruned now ++ [now]) ∧
    (∀ t ∈ rl.pruned now, now - t < rl.window_seconds) ∧
    ((rl.pruned now).length < rl.max_requests → (rl.acquire now).1 = 0) ∧
    (rl.max_requests ≤ (rl.pruned now).length →
      (rl.acquire now).1 = rl.window_seconds - (now - listMin (rl.pruned now)) ∧
      0 < (rl.acquire now).1 ∧ (rl.acquire now).1 ≤ rl.window_seconds) := by
  have hmem : ∀ t ∈ rl.pruned now, now - t < rl.window_seconds := by
    intro t ht
    have := List.of_mem_filter ht
    simpa using this
  refine ⟨by simp [RateLimiter.acquire], hmem, ?_, ?_⟩
  · intro hlt
    simp [RateLimiter.acquire, Nat.not_le.2 hlt]
  · intro hge
    have hne : rl.pruned now ≠ [] := by
      intro h
      rw [h] at hge
      simp at hge
      omega
    have holdest : listMin (rl.pruned now) ∈ rl.pruned now := listMin_mem _ hne
    have hwin : now - listMin (rl.pruned now) < rl.window_seconds := hmem _ holdest
    have hpos : 0 < rl.window_seconds - (now - listMin (rl.pruned now)) := by omega
    have hle : listMin (rl.pruned now) ≤ now := by
      have : listMin (rl.pruned now) ∈ rl.requests :=
        List.mem_of_mem_filter holdest
      exact hpast _ this
    refine ⟨?_, ?_, ?_⟩ <;>
      simp [RateLimiter.acquire, hge, hpos] <;> omega

/-- C1 amended witness: a limiter at capacity (`max_requests = 2`,
both admissions at time `0`) makes the next call at time `0` suspend
for the full window. -/
theorem rateLimiter_acquire_amended_witness :
    ((⟨2, 60, [0, 0]⟩ : RateLimiter).acquire 0).1 = 60 ∧
    0 < ((⟨2, 60, [0, 0]⟩ : RateLimiter).acquire 0).1 := by
  have h := rateLimiter_acquire_amended ⟨2, 60, [0, 0]⟩ 0 (by decide) (by decide)
    (by decide)
  have h4 := h.2.2.2 (by decide)
  refine ⟨?_, h4.2.1⟩
  rw [h4.1]
  decide

/-- C1 counterexample: with `max_requests = 2, window_seconds = 60`, a
single sequential caller issuing `acquire` at times `0, 0, 0, 60, 60`
(each call issued only after the previous one returned) obtains
admission instants `0, 0, 60, 60, 60`: three admissions start inside
the trailing window `(0, 60]` of length `60`, exceeding
`max_requests = 2`.  The blocked third call sleeps until `60` but
records its pre-sleep timestamp `0`, which has left the window by the
time it is pruned, so the two calls at `60` see a window containing
only each other. -/
theorem rateLimiter_window_bound_counterexample :
    seqTraceOK 0 (RateLimiter.init 2 60) [0, 0, 0, 60, 60] = true ∧
    (acquireRun (RateLimiter.init 2 60) [0, 0, 0, 60, 60]).1 = [0, 0, 60, 60, 60] ∧
    2 < ((acquireRun (RateLimiter.init 2 60) [0, 0, 0, 60, 60]).1.countP
        (fun a => decide ((0 : Int) < a) && decide (a ≤ 60))) := by
  decide

/-- C10: a client constructed with the empty-string credential is
treated inconsistently.  `is_api_available` tests `is not None` and
returns true, so `search_modpacks` takes the Direct upstream path (it
issues a network call on a cache miss), yet `__aenter__` tests
truthiness and omits the `x-api-key` header.  With no credential at
all, the same search issues no network call. -/
theorem empty_api_key_inconsistent :
    isApiAvailable (some "") = true ∧
    ("x-api-key" ∉ (enterHeaders (some "")).map Prod.fst) ∧
    ("x-api-key" ∈ (enterHeaders (some "k")).map Prod.fst) ∧
    (searchModpacks (fun _ => some 0) (some "") true [] (RateLimiter.init 100 60)
        0 (.ok 200 (some []) "") "t" none "Popularity" "desc" 20 0).netCalls = 1 ∧
    (searchModpacks (fun _ => some 0) none true [] (RateLimiter.init 100 60)
        0 (.ok 200 (some []) "") "t" none "Popularity" "desc" 20 0).netCalls = 0 := by
  decide

theorem fallbackConvert_length (i : Nat) (l : List FallbackPack) :
    (fallbackConvert i l).length = l.length := by
  induction l generalizing i with
  | nil => rfl
  | cons p rest ih => simp [fallbackConvert, ih]

theorem fallbackConvert_getElem (i : Nat) (l : List FallbackPack) (j : Nat) :
    (fallbackConvert i l)[j]? = (l[j]?).map (fun p => fallbackEntry (i + j) p) := by
  induction l generalizing i j with
  | nil => simp [fallbackConvert]
  | cons p rest ih =>
    cases j with
    | zero => simp [fallbackConvert]
    | succ j' =>
      simpa [fallbackConvert, show i + 1 + j' = i + (j' + 1) from by omega]
        using ih (i + 1) j'

theorem fallbackConvert_mem (i : Nat) (l : List FallbackPack)
    (r : ModpackSearchResult) (hr : r ∈ fallbackConvert i l) :
    1000000 + (i : Int) ≤ r.id ∧ r.authors = ["Community"] ∧
      ∃ p ∈ l, r.name = p.name ∧ r.summary = p.description := by
  induction l generalizing i with
  | nil => cases hr
  | cons p rest ih =>
    rcases List.mem_cons.1 hr with rfl | hr'
    · exact ⟨le_refl _, rfl, p, List.mem_cons_self p rest, rfl, rfl⟩
    · obtain ⟨hle, hauth, q, hq, hname, hsum⟩ := ih (i + 1) hr'
      refine ⟨le_trans ?_ hle, hauth, q, List.mem_cons_of_mem p hq, hname, hsum⟩
      push_cast
      omega

theorem charsInfix_nil (hay : List Char) : charsInfix [] hay = true := by
  cases hay <;> simp [charsInfix, List.isPrefixOf]

theorem fallbackMatches_empty (p : FallbackPack) : fallbackMatches "" p = true := by
  simp [fallbackMatches, pyContains, pyLower, charsInfix_nil]

theorem searchFallbackModpacks_eq_filter (term : String) :
    searchFallbackModpacks term = popularModpacks.filter (fallbackMatches term) := by
  by_cases h : term.isEmpty
  · have hterm : term = "" := (String.isEmpty_iff term).1 h
    subst hterm
    rw [searchFallbackModpacks, List.filter_eq_self.2 (fun p _ => fallbackMatches_empty p)]
    rfl
  · simp [searchFallbackModpacks, h]

theorem fallbackConvert_map_names (i : Nat) (l : List FallbackPack) :
    (fallbackConvert i l).map (fun r => (r.name, r.summary))
      = l.map (fun p => (p.name, p.description)) := by
  induction l generalizing i with
  | nil => rfl
  | cons p rest ih => simp [fallbackConvert, fallbackEntry, ih]

/-- C5: every fallback search result has a synthetic id `≥ 1,000,000`
(consecutive from that offset), carries the `"Community"` author
placeholder, and the list is the page-size-truncated sequence of the
fixed catalog entries whose name or description matches the term
case-insensitively; a credential-less `search("Better")` is
non-empty. -/
theorem search_fallback_results_spec (parseDate : String → Option Int)
    (client : Bool) (cache : Cache (Option (List RawMod))) (rl : RateLimiter)
    (now : Int) (net : HttpResult (Option (List RawMod))) (term : String)
    (cf : Option String) (sf so : String) (ps : Nat) (idx : Int) :
    searchModpacks parseDate none client cache rl now net term cf sf so ps idx
      = ⟨fallbackResults term ps, cache, rl, 0⟩ ∧
    fallbackResults term ps
      = fallbackConvert 0 ((popularModpacks.filter (fallbackMatches term)).take ps) ∧
    (fallbackResults term ps).length
      = min ps (popularModpacks.filter (fallbackMatches term)).length ∧
    (∀ (j : Nat) (r : ModpackSearchResult), (fallbackResults term ps)[j]? = some r →
      r.id = 1000000 + (j : Int)) ∧
    (∀ r ∈ fallbackResults term ps,
      1000000 ≤ r.id ∧ r.authors = ["Community"] ∧
        ∃ p ∈ popularModpacks, fallbackMatches term p = true ∧
          r.name = p.name ∧ r.summary = p.description) ∧
    ((fallbackResults term ps).map (fun r => (r.name, r.summary))
      = ((popularModpacks.filter (fallbackMatches term)).take ps).map
          (fun p => (p.name, p.description))) ∧
    fallbackResults "Better" 20 ≠ [] := by
  have hfb : fallbackResults term ps
      = fallbackConvert 0 ((popularModpacks.filter (fallbackMatches term)).take ps) := by
    rw [fallbackResults, searchFallbackModpacks_eq_filter]
  refine ⟨?_, hfb, ?_, ?_, ?_, ?_, by decide⟩
  · simp [searchModpacks, isApiAvailable]
  · rw [hfb, fallbackConvert_length, List.length_take]
  · intro j r hr
    rw [hfb, fallbackConvert_getElem] at hr
    rcases hp : ((popularModpacks.filter (fallbackMatches term)).take ps)[j]? with _ | p
    · rw [hp] at hr; cases hr
    · rw [hp] at hr
      have he : fallbackEntry (0 + j) p = r := by simpa using hr
      rw [← he]
      simp [fallbackEntry]
  · intro r hr
    rw [hfb] at hr
    obtain ⟨hle, hauth, p, hp, hname, hsum⟩ := fallbackConvert_mem 0 _ r hr
    refine ⟨by simpa using hle, hauth, p, ?_, ?_, hname, hsum⟩
    · exact List.mem_of_mem_filter (List.mem_of_mem_take hp)
    · exact List.of_mem_filter (List.mem_of_mem_take hp)
  · rw [hfb, fallbackConvert_map_names]

/-- C5 witness: the credential-less `search("Better")` scenario. -/
theorem search_fallback_results_spec_witness :
    searchModpacks (fun _ => some 0) none true [] (RateLimiter.init 100 60) 0
        (.ok 200 (some []) "") "Better" none "Popularity" "desc" 20 0
      = ⟨fallbackResults "Better" 20, [], RateLimiter.init 100 60, 0⟩ ∧
    (fallbackEntry 0 ⟨"Better Minecraft",
        "Enhanced vanilla experience with performance mods", "1.20.1", "Fabric",
        "Download from CurseForge or Modrinth", "~200MB", "Beginner"⟩).id
      = 1000000 + ((0 : Nat) : Int) := by
  have h := search_fallback_results_spec (fun _ => some 0) true []
    (RateLimiter.init 100 60) 0 (.ok 200 (some []) "") "Better" none
    "Popularity" "desc" 20 0
  exact ⟨h.1, h.2.2.2.1 0 _ (by decide)⟩

theorem makeRequest_hit (endpoint : String) (params : List (String × String))
    (cache : Cache β) (rl : RateLimiter) (now : Int) (net : HttpResult β)
    (d : β) (c' : Cache β)
    (hhit : getCachedData cache (getCacheKey endpoint params) now = (some d, c')) :
    makeRequest endpoint params true cache rl now net = ⟨.ok d, c', rl, 0⟩ := by
  unfold makeRequest
  simp [hhit]

theorem makeRequest_miss_ok (endpoint : String) (params : List (String × String))
    (cache : Cache β) (rl : RateLimiter) (now : Int) (status : Nat) (body : β)
    (text : String) (c' : Cache β)
    (hmiss : getCachedData cache (getCacheKey endpoint params) now = (none, c'))
    (h429 : status ≠ 429) (h404 : status ≠ 404) (hlt : status < 400) :
    makeRequest endpoint params true cache rl now (.ok status body text) =
      ⟨.ok body, cacheData c' (getCacheKey endpoint params) body 300 now,
        (rl.acquire now).2, 1⟩ := by
  unfold makeRequest
  rcases hacq : rl.acquire now with ⟨w, rl2⟩
  simp [hmiss, hacq, h429, h404, Nat.not_le.2 hlt]

theorem makeRequest_miss_err (endpoint : String) (params : List (String × String))
    (cache : Cache β) (rl : RateLimiter) (now : Int) (net : HttpResult β)
    (c' : Cache β) (e : ServiceError)
    (hmiss : getCachedData cache (getCacheKey endpoint params) now = (none, c'))
    (herr : (makeRequest endpoint params true cache rl now net).result = .error e) :
    makeRequest endpoint params true cache rl now net =
      ⟨.error e, c', (rl.acquire now).2, 1⟩ := by
  unfold makeRequest at herr ⊢
  rcases hacq : rl.acquire now with ⟨w, rl2⟩
  rw [hacq] at herr
  cases net with
  | ok status body text =>
    by_cases h429 : status = 429
    · simp_all [hmiss, hacq]
    · by_cases h404 : status = 404
      · simp_all [hmiss, hacq]
      · by_cases hge : 400 ≤ status
        · simp_all [hmiss, hacq]
        · simp_all [hmiss, hacq]
  | connectError msg => simp_all [hmiss, hacq]
  | timeoutError msg => simp_all [hmiss, hacq]
  | transportError msg => simp_all [hmiss, hacq]

theorem searchModpacks_direct_ok (parseDate : String → Option Int)
    (api_key : Option String) (client : Bool)
    (cache : Cache (Option (List RawMod))) (rl : RateLimiter) (now : Int)
    (net : HttpResult (Option (List RawMod))) (term : String)
    (cf : Option String) (sf so : String) (ps : Nat) (idx : Int)
    (resp : Option (List RawMod)) (c' : Cache (Option (List RawMod)))
    (rl' : RateLimiter) (n : Nat) (hk : isApiAvailable api_key = true)
    (hreq : makeRequest "/mods/search" (searchParams term sf so ps idx)
        client cache rl now net = ⟨.ok resp, c', rl', n⟩) :
    searchModpacks parseDate api_key client cache rl now net term cf sf so ps idx
      = ⟨parseSearchBatch parseDate cf (resp.getD []), c', rl', n⟩ := by
  unfold searchModpacks
  simp [hk, hreq]

theorem searchModpacks_direct_err (parseDate : String → Option Int)
    (api_key : Option String) (client : Bool)
    (cache : Cache (Option (List RawMod))) (rl : RateLimiter) (now : Int)
    (net : HttpResult (Option (List RawMod))) (term : String)
    (cf : Option String) (sf so : String) (ps : Nat) (idx : Int)
    (e : ServiceError) (c' : Cache (Option (List RawMod)))
    (rl' : RateLimiter) (n : Nat) (hk : isApiAvailable api_key = true)
    (hreq : makeRequest "/mods/search" (searchParams term sf so ps idx)
        client cache rl now net = ⟨.error e, c', rl', n⟩) :
    searchModpacks parseDate api_key client cache rl now net term cf sf so ps idx
      = ⟨fallbackResults term ps, c', rl', n⟩ := by
  unfold searchModpacks
  simp [hk, hreq]

/-- C4: on the search path in Direct state (credential present), a
failure other than a not-found condition is absorbed: the search
returns the static fallback suggestion set instead of raising, so
search surfaces no connectivity, rate-limit, or generic API error.
(The code in fact absorbs not-found failures on search as well; the
hypothesis `e.isNotFound = false` restricts this statement to the
claim's scope.) -/
theorem search_direct_absorbs_errors (parseDate : String → Option Int)
    (k : String) (client : Bool) (cache : Cache (Option (List RawMod)))
    (rl : RateLimiter) (now : Int) (net : HttpResult (Option (List RawMod)))
    (term : String) (cf : Option String) (sf so : String) (ps : Nat) (idx : Int)
    (e : ServiceError) (c' : Cache (Option (List RawMod))) (rl' : RateLimiter)
    (n : Nat) (he : e.isNotFound = false)
    (hreq : makeRequest "/mods/search" (searchParams term sf so ps idx)
        client cache rl now net = ⟨.error e, c', rl', n⟩) :
    searchModpacks parseDate (some k) client cache rl now net term cf sf so ps idx
      = ⟨fallbackResults term ps, c', rl', n⟩ :=
  searchModpacks_direct_err parseDate (some k) client cache rl now net term
    cf sf so ps idx e c' rl' n rfl hreq

/-- C4 witness: a connection failure on a credentialed search yields
the fallback suggestions. -/
theorem search_direct_absorbs_errors_witness :
    searchModpacks (fun _ => some 0) (some "key") true [] (RateLimiter.init 100 60)
        0 (.connectError "boom") "t" none "Popularity" "desc" 20 0
      = ⟨fallbackResults "t" 20, [],
          ((RateLimiter.init 100 60).acquire 0).2, 1⟩ :=
  search_direct_absorbs_errors (fun _ => some 0) "key" true []
    (RateLimiter.init 100 60) 0 (.connectError "boom") "t" none "Popularity"
    "desc" 20 0 (.connection "Failed to connect to CurseForge API: boom") []
    ((RateLimiter.init 100 60).acquire 0).2 1 (by decide) (by decide)

theorem getCachedData_cacheData_fresh (c : Cache β) (k : String) (d : β)
    (t1 t2 : Int) (h : t2 ≤ t1 + 300) :
    getCachedData (cacheData c k d 300 t1) k t2
      = (some d, cacheData c k d 300 t1) := by
  unfold getCachedData
  rw [cacheFind_cacheData_self]
  have hexp : (⟨d, t1 + 300⟩ : CacheEntry β).is_expired t2 = false := by
    simp only [CacheEntry.is_expired, decide_eq_false_iff_not, Int.not_lt]
    omega
  simp [hexp]

/-- C7: on a cache hit an upstream-backed call returns immediately.
Two identical credentialed `search` calls, the second within the
300-second TTL of the first, leave the recorded-admission state of the
rate limiter untouched on the second call, perform no second HTTP GET
(`netCalls = 0`), do not change the cache, and return an equal result
sequence; the first call performed exactly one GET. -/
theorem search_cache_hit_frame (parseDate : String → Option Int) (k : String)
    (rl : RateLimiter) (t1 t2 : Int) (body : Option (List RawMod))
    (text term : String) (cf : Option String) (sf so : String) (ps : Nat)
    (idx : Int) (net2 : HttpResult (Option (List RawMod)))
    (h : t2 ≤ t1 + 300) :
    (searchModpacks parseDate (some k) true [] rl t1 (.ok 200 body text)
        term cf sf so ps idx).netCalls = 1 ∧
    (searchModpacks parseDate (some k) true
        (searchModpacks parseDate (some k) true [] rl t1 (.ok 200 body text)
          term cf sf so ps idx).cache
        (searchModpacks parseDate (some k) true [] rl t1 (.ok 200 body text)
          term cf sf so ps idx).limiter
        t2 net2 term cf sf so ps idx)
      = ⟨(searchModpacks parseDate (some k) true [] rl t1 (.ok 200 body text)
            term cf sf so ps idx).result,
         (searchModpacks parseDate (some k) true [] rl t1 (.ok 200 body text)
            term cf sf so ps idx).cache,
         (searchModpacks parseDate (some k) true [] rl t1 (.ok 200 body text)
            term cf sf so ps idx).limiter,
         0⟩ := by
  have hmiss : getCachedData ([] : Cache (Option (List RawMod)))
      (getCacheKey "/mods/search" (searchParams term sf so ps idx)) t1
        = (none, []) := rfl
  have hreq1 := makeRequest_miss_ok "/mods/search" (searchParams term sf so ps idx)
    [] rl t1 200 body text [] hmiss (by decide) (by decide) (by decide)
  have h1 := searchModpacks_direct_ok parseDate (some k) true [] rl t1
    (.ok 200 body text) term cf sf so ps idx body
    (cacheData [] (getCacheKey "/mods/search" (searchParams term sf so ps idx))
      body 300 t1)
    (rl.acquire t1).2 1 rfl hreq1
  have hhit := getCachedData_cacheData_fresh ([] : Cache (Option (List RawMod)))
    (getCacheKey "/mods/search" (searchParams term sf so ps idx)) body t1 t2 h
  have hreq2 := makeRequest_hit "/mods/search" (searchParams term sf so ps idx)
    (cacheData [] (getCacheKey "/mods/search" (searchParams term sf so ps idx))
      body 300 t1)
    (rl.acquire t1).2 t2 net2 body
    (cacheData [] (getCacheKey "/mods/search" (searchParams term sf so ps idx))
      body 300 t1) hhit
  have h2 := searchModpacks_direct_ok parseDate (some k) true
    (cacheData [] (getCacheKey "/mods/search" (searchParams term sf so ps idx))
      body 300 t1)
    (rl.acquire t1).2 t2 net2 term cf sf so ps idx body
    (cacheData [] (getCacheKey "/mods/search" (searchParams term sf so ps idx))
      body 300 t1)
    (rl.acquire t1).2 0 rfl hreq2
  rw [h1]
  exact ⟨rfl, by rw [h2]⟩

/-- C7 witness: a concrete repeated search within the TTL window. -/
theorem search_cache_hit_frame_witness :
    (searchModpacks (fun _ => some 0) (some "k") true [] (RateLimiter.init 100 60)
        0 (.ok 200 (some []) "") "t" none "Popularity" "desc" 20 0).netCalls = 1 ∧
    (searchModpacks (fun _ => some 0) (some "k") true
        (searchModpacks (fun _ => some 0) (some "k") true [] (RateLimiter.init 100 60)
          0 (.ok 200 (some []) "") "t" none "Popularity" "desc" 20 0).cache
        (searchModpacks (fun _ => some 0) (some "k") true [] (RateLimiter.init 100 60)
          0 (.ok 200 (some []) "") "t" none "Popularity" "desc" 20 0).limiter
        250 (.connectError "down") "t" none "Popularity" "desc" 20 0)
      = ⟨(searchModpacks (fun _ => some 0) (some "k") true [] (RateLimiter.init 100 60)
            0 (.ok 200 (some []) "") "t" none "Popularity" "desc" 20 0).result,
         (searchModpacks (fun _ => some 0) (some "k") true [] (RateLimiter.init 100 60)
            0 (.ok 200 (some []) "") "t" none "Popularity" "desc" 20 0).cache,
         (searchModpacks (fun _ => some 0) (some "k") true [] (RateLimiter.init 100 60)
            0 (.ok 200 (some []) "") "t" none "Popularity" "desc" 20 0).limiter,
         0⟩ :=
  search_cache_hit_frame (fun _ => some 0) "k" (RateLimiter.init 100 60) 0 250
    (some []) "" "t" none "Popularity" "desc" 20 0 (.connectError "down")
    (by decide)

/-- C2 evaluation: an upstream 404 (and an empty detail payload)
propagates from `get_modpack_details` as the distinct not-found error,
but an upstream 404 on `get_modpack_versions` is caught by its bare
`except Exception` and re-raised as a *generic* wrapped error — its
own docstring notwithstanding — because that function lacks the
`except ModpackNotFoundError: raise` clause. -/
theorem versions_not_found_wrapped :
    (getModpackDetails (fun _ => some 0) true [] (RateLimiter.init 100 60) 0
        (.ok 404 none "Not Found") 999999999).result
      = .error (.notFound "Resource not found: /mods/999999999") ∧
    (getModpackDetails (fun _ => some 0) true [] (RateLimiter.init 100 60) 0
        (.ok 200 none "") 999999999).result
      = .error (.notFound "Modpack 999999999 not found") ∧
    (getModpackDetails (fun _ => some 0) true [] (RateLimiter.init 100 60) 0
        (.connectError "down") 999999999).result
      = .error (.generic
          "Failed to retrieve modpack details: Failed to connect to CurseForge API: down") ∧
    (getModpackVersions (fun _ => some 0) true [] (RateLimiter.init 100 60) 0
        (.ok 404 none "Not Found") 999999999 none).result
      = .error (.generic
          "Failed to retrieve modpack versions: Resource not found: /mods/999999999/files") ∧
    (ServiceError.generic
        "Failed to retrieve modpack versions: Resource not found: /mods/999999999/files").isNotFound
      = false := by
  decide

theorem getModpackVersions_req_ok (parseDate : String → Option Int)
    (client : Bool) (cache : Cache (Option (List RawFile))) (rl : RateLimiter)
    (now : Int) (net : HttpResult (Option (List RawFile))) (id : Int)
    (gv : Option String) (resp : Option (List RawFile))
    (c' : Cache (Option (List RawFile))) (rl' : RateLimiter) (n : Nat)
    (hreq : makeRequest (versionsEndpoint id) (versionsParams gv) client cache
        rl now net = ⟨.ok resp, c', rl', n⟩) :
    getModpackVersions parseDate client cache rl now net id gv
      = ⟨.ok (if (resp.getD []).isEmpty then []
          else sortVersions (parseVersionBatch parseDate (resp.getD []))),
          c', rl', n⟩ := by
  unfold getModpackVersions
  by_cases hE : (resp.getD []).isEmpty <;> simp [hreq, hE]

/-- The distinct-date strict order used to pin the sorted output down
uniquely. -/
def versionStrictAfter (a b : ModpackVersion) : Prop := b.file_date < a.file_date

instance : IsAntisymm ModpackVersion versionStrictAfter :=
  ⟨fun _ _ hab hba => absurd (lt_trans hab hba) (lt_irrefl _)⟩

/-- C6: `get_versions` returns the entry's version records sorted by
file timestamp descending — for three records with strictly increasing
timestamps the output is exactly `[T3, T2, T1]` whatever the upstream
order — and returns the empty sequence, not an error, when the entry
has no files. -/
theorem get_versions_sorted_desc (parseDate : String → Option Int)
    (client : Bool) (cache : Cache (Option (List RawFile))) (rl : RateLimiter)
    (now : Int) (net : HttpResult (Option (List RawFile))) (id : Int)
    (gv : Option String) (resp : Option (List RawFile))
    (c' : Cache (Option (List RawFile))) (rl' : RateLimiter) (n : Nat)
    (hreq : makeRequest (versionsEndpoint id) (versionsParams gv) client cache
        rl now net = ⟨.ok resp, c', rl', n⟩) :
    (resp.getD [] = [] →
      (getModpackVersions parseDate client cache rl now net id gv).result
        = .ok []) ∧
    (∀ files, resp = some files → files ≠ [] →
      (getModpackVersions parseDate client cache rl now net id gv).result
        = .ok (sortVersions (parseVersionBatch parseDate files)) ∧
      (sortVersions (parseVersionBatch parseDate files)).Perm
        (parseVersionBatch parseDate files) ∧
      (sortVersions (parseVersionBatch parseDate files)).Sorted versionAfter) ∧
    (∀ (v1 v2 v3 : ModpackVersion) (l : List ModpackVersion),
      v1.file_date < v2.file_date → v2.file_date < v3.file_date →
      l.Perm [v1, v2, v3] → sortVersions l = [v3, v2, v1]) := by
  refine ⟨?_, ?_, ?_⟩
  · intro hnil
    rw [getModpackVersions_req_ok parseDate client cache rl now net id gv resp
      c' rl' n hreq]
    simp [hnil]
  · intro files hfiles hne
    subst hfiles
    have hE : (((some files : Option (List RawFile))).getD []).isEmpty = false := by
      simpa using hne
    rw [getModpackVersions_req_ok parseDate client cache rl now net id gv _
      c' rl' n hreq]
    refine ⟨by simp [hE, hne], ?_, ?_⟩
    · exact List.perm_insertionSort versionAfter _
    · exact List.sorted_insertionSort versionAfter _
  · intro v1 v2 v3 l h12 h23 hl
    have h13 : v1.file_date < v3.file_date := lt_trans h12 h23
    have hne12 : v1 ≠ v2 := fun h => absurd h12 (by rw [h]; exact lt_irrefl _)
    have hne23 : v2 ≠ v3 := fun h => absurd h23 (by rw [h]; exact lt_irrefl _)
    have hne13 : v1 ≠ v3 := fun h => absurd h13 (by rw [h]; exact lt_irrefl _)
    have hnd : ([v1, v2, v3] : List ModpackVersion).Nodup := by
      simp [List.nodup_cons, hne12, hne13, hne23]
    have hperm : (sortVersions l).Perm [v1, v2, v3] :=
      (List.perm_insertionSort versionAfter l).trans hl
    have hnds : (sortVersions l).Nodup := hperm.nodup_iff.2 hnd
    have hsorted : (sortVersions l).Sorted versionAfter :=
      List.sorted_insertionSort versionAfter l
    have hstrict : (sortVersions l).Pairwise versionStrictAfter := by
      refine List.Pairwise.imp_of_mem ?_ (hsorted.and hnds)
      intro a b ha hb hab
      obtain ⟨hle, hne⟩ := hab
      have ha' : a ∈ ([v1, v2, v3] : List ModpackVersion) := hperm.mem_iff.1 ha
      have hb' : b ∈ ([v1, v2, v3] : List ModpackVersion) := hperm.mem_iff.1 hb
      simp only [List.mem_cons, List.not_mem_nil, or_false] at ha' hb'
      have hle' : b.file_date ≤ a.file_date := hle
      show b.file_date < a.file_date
      rcases ha' with rfl | rfl | rfl <;> rcases hb' with rfl | rfl | rfl <;>
        first
          | exact absurd rfl hne
          | omega
    have htgt : ([v3, v2, v1] : List ModpackVersion).Pairwise versionStrictAfter := by
      refine List.Pairwise.cons ?_ (List.Pairwise.cons ?_ (List.Pairwise.cons ?_
        List.Pairwise.nil))
      · intro b hb
        simp only [List.mem_cons, List.not_mem_nil, or_false] at hb
        rcases hb with rfl | rfl <;> [exact h23; exact h13]
      · intro b hb
        simp only [List.mem_cons, List.not_mem_nil, or_false] at hb
        subst hb
        exact h12
      · intro b hb
        cases hb
    have hpermT : (sortVersions l).Perm [v3, v2, v1] := by
      refine hperm.trans ?_
      have hrev : ([v1, v2, v3] : List ModpackVersion).reverse = [v3, v2, v1] := rfl
      rw [← hrev]
      exact (List.reverse_perm [v1, v2, v3]).symm
    exact List.eq_of_perm_of_sorted hpermT hstrict htgt

/-- C6 witness: three files with increasing timestamps arriving in
scrambled upstream order come back newest-first; the date parser maps
a date string to its length. -/
theorem get_versions_sorted_desc_witness :
    (getModpackVersions (fun s => some (s.length : Int)) true []
        (RateLimiter.init 100 60) 0
        (.ok 200 (some
          [ { id := some 1, displayName := some "a", fileName := some "a",
              fileDate := some "1" },
            { id := some 3, displayName := some "c", fileName := some "c",
              fileDate := some "333" },
            { id := some 2, displayName := some "b", fileName := some "b",
              fileDate := some "22" } ]) "") 7 none).result
      = .ok (sortVersions (parseVersionBatch (fun s => some (s.length : Int))
          [ { id := some 1, displayName := some "a", fileName := some "a",
              fileDate := some "1" },
            { id := some 3, displayName := some "c", fileName := some "c",
              fileDate := some "333" },
            { id := some 2, displayName := some "b", fileName := some "b",
              fileDate := some "22" } ])) ∧
    sortVersions
        [ ⟨1, "a", "a", 1, "", [], none, 0⟩,
          ⟨3, "c", "c", 3, "", [], none, 0⟩,
          ⟨2, "b", "b", 2, "", [], none, 0⟩ ]
      = [ ⟨3, "c", "c", 3, "", [], none, 0⟩,
          ⟨2, "b", "b", 2, "", [], none, 0⟩,
          ⟨1, "a", "a", 1, "", [], none, 0⟩ ] := by
  have hreq : makeRequest (versionsEndpoint 7) (versionsParams none) true
      ([] : Cache (Option (List RawFile))) (RateLimiter.init 100 60) 0
      (.ok 200 (some
        [ { id := some 1, displayName := some "a", fileName := some "a",
            fileDate := some "1" },
          { id := some 3, displayName := some "c", fileName := some "c",
            fileDate := some "333" },
          { id := some 2, displayName := some "b", fileName := some "b",
            fileDate := some "22" } ]) "")
      = ⟨.ok (some
          [ { id := some 1, displayName := some "a", fileName := some "a",
              fileDate := some "1" },
            { id := some 3, displayName := some "c", fileName := some "c",
              fileDate := some "333" },
            { id := some 2, displayName := some "b", fileName := some "b",
              fileDate := some "22" } ]),
          cacheData [] (getCacheKey (versionsEndpoint 7) (versionsParams none))
            (some
              [ { id := some 1, displayName := some "a", fileName := some "a",
                  fileDate := some "1" },
                { id := some 3, displayName := some "c", fileName := some "c",
                  fileDate := some "333" },
                { id := some 2, displayName := some "b", fileName := some "b",
                  fileDate := some "22" } ]) 300 0,
          ((RateLimiter.init 100 60).acquire 0).2, 1⟩ := by decide
  have h := get_versions_sorted_desc (fun s => some (s.length : Int)) true []
    (RateLimiter.init 100 60) 0
    (.ok 200 (some
      [ { id := some 1, displayName := some "a", fileName := some "a",
          fileDate := some "1" },
        { id := some 3, displayName := some "c", fileName := some "c",
          fileDate := some "333" },
        { id := some 2, displayName := some "b", fileName := some "b",
          fileDate := some "22" } ]) "") 7 none _ _ _ _ hreq
  refine ⟨(h.2.1 _ rfl (by decide)).1, ?_⟩
  exact h.2.2 ⟨1, "a", "a", 1, "", [], none, 0⟩ ⟨2, "b", "b", 2, "", [], none, 0⟩
    ⟨3, "c", "c", 3, "", [], none, 0⟩ _ (by decide) (by decide) (by decide)

/-- C8 counterexample: normalization can raise a parse failure whose
cause is not a malformed timestamp — a record lacking the required
`id` subscript fails with a `KeyError` even though its timestamp field
is absent (and hence not malformed), under a date parser that never
fails. -/
theorem parse_failure_without_bad_timestamp :
    parseModpackSearchResult (fun _ => some 0)
        { name := some "All The Mods 9", summary := some "ok" }
      = .error (.missingKey "id") ∧
    ({ name := some "All The Mods 9", summary := some "ok" } : RawMod).dateModified
      = none := by
  decide

/-- C8 amended: a record with all-optional fields missing normalizes
with empty-sequence/null defaults; a search-record parse fails only
for a missing required subscript (`id`, `name`) or a present, truthy,
malformed timestamp; a version-record parse fails only for a missing
required subscript (`id`, `displayName`, `fileName`, `fileDate`) or a
malformed timestamp; and the batch loops skip a failing record and
return the normalized remainder, so one bad record never fails the
whole batch. -/
theorem parse_failure_characterization (parseDate : String → Option Int) :
    (∀ (id : Int) (name : String),
      parseModpackSearchResult parseDate { id := some id, name := some name }
        = .ok { id := id, name := name, summary := "", download_count := 0,
                categories := [], authors := [], logo_url := none,
                last_updated := none }) ∧
    (∀ (m : RawMod) (e : ParseError),
      parseModpackSearchResult parseDate m = .error e →
        m.id = none ∨ m.name = none ∨
          ∃ s, m.dateModified = some s ∧ s.isEmpty = false ∧
            parseDate (replaceZ s) = none) ∧
    (∀ (f : RawFile) (e : ParseError),
      parseModpackVersion parseDate f = .error e →
        f.id = none ∨ f.displayName = none ∨ f.fileName = none ∨
          f.fileDate = none ∨
          ∃ s, f.fileDate = some s ∧ parseDate (replaceZ s) = none) ∧
    (∀ (cf : Option String) (ms1 ms2 : List RawMod) (m : RawMod) (e : ParseError),
      parseModpackSearchResult parseDate m = .error e →
        parseSearchBatch parseDate cf (ms1 ++ m :: ms2)
          = parseSearchBatch parseDate cf (ms1 ++ ms2)) ∧
    (∀ (fs1 fs2 : List RawFile) (f : RawFile) (e : ParseError),
      parseModpackVersion parseDate f = .error e →
        parseVersionBatch parseDate (fs1 ++ f :: fs2)
          = parseVersionBatch parseDate (fs1 ++ fs2)) := by
  refine ⟨?_, ?_, ?_, ?_, ?_⟩
  · intro id name
    rfl
  · intro m e h
    rcases hid : m.id with _ | idv
    · exact Or.inl rfl
    rcases hname : m.name with _ | namev
    · exact Or.inr (Or.inl rfl)
    rcases hdate : m.dateModified with _ | s
    · simp [parseModpackSearchResult, require, parseOptDate, hid, hname, hdate,
        Bind.bind, Except.bind] at h
    · by_cases hemp : s.isEmpty
      · simp [parseModpackSearchResult, require, parseOptDate, hid, hname,
          hdate, hemp, Bind.bind, Except.bind] at h
      · rcases hpd : parseDate (replaceZ s) with _ | t
        · exact Or.inr (Or.inr ⟨s, rfl, by simpa using hemp, hpd⟩)
        · simp [parseModpackSearchResult, require, parseOptDate, hid, hname,
            hdate, hemp, hpd, Bind.bind, Except.bind] at h
  · intro f e h
    rcases hid : f.id with _ | idv
    · exact Or.inl rfl
    rcases hdn : f.displayName with _ | dnv
    · exact Or.inr (Or.inl rfl)
    rcases hfn : f.fileName with _ | fnv
    · exact Or.inr (Or.inr (Or.inl rfl))
    rcases hfd : f.fileDate with _ | s
    · exact Or.inr (Or.inr (Or.inr (Or.inl rfl)))
    rcases hpd : parseDate (replaceZ s) with _ | t
    · exact Or.inr (Or.inr (Or.inr (Or.inr ⟨s, rfl, hpd⟩)))
    · simp [parseModpackVersion, require, hid, hdn, hfn, hfd, hpd,
        Bind.bind, Except.bind] at h
  · intro cf ms1 ms2 m e h
    unfold parseSearchBatch
    rw [List.filterMap_append, List.filterMap_append, List.filterMap_cons]
    simp [h]
  · intro fs1 fs2 f e h
    unfold parseVersionBatch
    rw [List.filterMap_append, List.filterMap_append, List.filterMap_cons]
    simp [h, Except.toOption]

/-- C8 amended witness: a batch containing one record with a bad
timestamp and one record missing `id` normalizes to the remainder. -/
theorem parse_failure_characterization_witness :
    parseModpackSearchResult (fun s => if s = "bad" then none else some 0)
        { id := some 1, name := some "ok" }
      = .ok { id := 1, name := "ok", summary := "", download_count := 0,
              categories := [], authors := [], logo_url := none,
              last_updated := none } ∧
    parseSearchBatch (fun s => if s = "bad" then none else some 0) none
        [ { id := some 1, name := some "ok" },
          { id := some 2, name := some "broken", dateModified := some "bad" } ]
      = parseSearchBatch (fun s => if s = "bad" then none else some 0) none
          [ { id := some 1, name := some "ok" } ] := by
  have h := parse_failure_characterization (fun s => if s = "bad" then none else some 0)
  refine ⟨h.1 1 "ok", ?_⟩
  have h4 := h.2.2.2.1 none [{ id := some 1, name := some "ok" }] []
    { id := some 2, name := some "broken", dateModified := some "bad" }
    (.badTimestamp "bad") (by decide)
  simpa using h4

end ContainerCraft
